import Mathlib

/-!
A shallow embedding of the tiny_tp thread pool (src/tiny_tp.hpp) and proofs
about its specification.

Modelling conventions:
* C++ shared pointers are modelled by the type `Ptr`: `Ptr.null` is the null
  pointer, `Ptr.sentinel` is the one allocation `exit_mark_` made by the pool
  constructor (line 95), and `Ptr.addr n` is any other heap allocation.
  Pointer identity is equality of `Ptr` values; the value a pointer points at
  is not part of `Ptr`, which is exactly what makes the pointer-identity
  comparison on line 174 of the source distinguishable from value equality.
* The pool object is `PoolState`: the waiting queue (line 73), the results
  queue (line 76), the idle map (line 78, as an association list keyed by a
  thread id modelled as `Nat`), the pointee of `exit_mark_` (line 83), and
  the two constants `kMaxQueueSize` / `kNumThreads`.
* A task (`ITask`, line 24) is characterised by the pointer its `Execute`
  returns; a `shared_ptr<ITask>` argument is `Option ITask`, `none` being a
  null task pointer.
* Locking, condition-variable signalling and thread scheduling are
  concurrency; member functions are embodied as pure state transformers of
  `PoolState` (each runs under the locks it takes), and interleavings are
  explicit event sequences or inductively defined step relations.
-/

namespace TinyTp

/-- A C++ `shared_ptr<void>` value, identified by what allocation it points
at: null, the pool-owned `exit_mark_` allocation, or any other address. -/
inductive Ptr where
  | null
  | sentinel
  | addr (n : Nat)
deriving DecidableEq

/-- `ITask` (line 24 of tiny_tp.hpp): a task is characterised by the result
pointer its `Execute` returns. -/
structure ITask where
  Execute : Ptr
deriving DecidableEq

/-- A `shared_ptr<ITask>`; `none` is a null task pointer. -/
abbrev TaskRef := Option ITask

/-- The data members of `ThreadPool` (lines 73-83): waiting queue, results
queue, idle map, the counter stored in the `exit_mark_` allocation, and the
two constructor constants. -/
structure PoolState where
  waitingQueue : List TaskRef
  resultsQueue : List Ptr
  threadsIdle : List (Nat × Bool)
  exitMark : Nat
  kMaxQueueSize : Nat
  kNumThreads : Nat
deriving DecidableEq

/-- `ThreadPool::kDefaultMaxQueueSize` (line 33). -/
def kDefaultMaxQueueSize : Nat := 65535

/-- The constructor (lines 92-103): spawns `numThreads` workers with fresh
distinct ids, each entered into the idle map as idle, queues empty and the
`exit_mark_` counter freshly allocated holding 0. -/
def mkThreadPool (numThreads maxQueueSize : Nat) : PoolState :=
  { waitingQueue := []
    resultsQueue := []
    threadsIdle := (List.range numThreads).map fun i => (i, true)
    exitMark := 0
    kMaxQueueSize := maxQueueSize
    kNumThreads := numThreads }

/-- `ThreadPool::Drop` (lines 117-125): rejects when the queue already holds
at least `kMaxQueueSize` tasks, otherwise pushes the task at the tail.  The
`notify_one` call only wakes a sleeping worker and does not change the state.
Returns the C++ return value paired with the post state. -/
def Drop (s : PoolState) (task : TaskRef) : Bool × PoolState :=
  if s.kMaxQueueSize ≤ s.waitingQueue.length then (false, s)
  else (true, { s with waitingQueue := s.waitingQueue ++ [task] })

/-- The `while` loop of `GrabAllResults` (lines 130-133): repeatedly pushes
the queue front onto the back of the vector and pops it. -/
def grabLoop (acc : List Ptr) : List Ptr → List Ptr
  | [] => acc
  | r :: rest => grabLoop (acc ++ [r]) rest

/-- `ThreadPool::GrabAllResults` (lines 127-135): drains the results queue
into a vector, front first.  Returns the vector paired with the post state. -/
def GrabAllResults (s : PoolState) : List Ptr × PoolState :=
  (grabLoop [] s.resultsQueue, { s with resultsQueue := [] })

/-- `ThreadPool::QueryIdleThreadsCount` (lines 137-142): `count_if` of the
entries of the idle map whose flag is true. -/
def QueryIdleThreadsCount (s : PoolState) : Nat :=
  (s.threadsIdle.filter fun e => e.2).length

/-- `ThreadPool::QueryWaitingQueueCount` (lines 144-147). -/
def QueryWaitingQueueCount (s : PoolState) : Nat :=
  s.waitingQueue.length

/-- `ThreadPool::QueryResultsCount` (lines 149-152). -/
def QueryResultsCount (s : PoolState) : Nat :=
  s.resultsQueue.length

theorem grabLoop_eq (l : List Ptr) : ∀ acc : List Ptr, grabLoop acc l = acc ++ l := by
  induction l with
  | nil => intro acc; simp [grabLoop]
  | cons r rest ih => intro acc; simp [grabLoop, ih]

theorem GrabAllResults_fst (s : PoolState) : (GrabAllResults s).1 = s.resultsQueue := by
  simp [GrabAllResults, grabLoop_eq]

/-- `ThreadPool::QuitTask` (lines 61-68): its `Execute` returns the pool
member `exit_mark_`, i.e. the sentinel pointer.  The destructor constructs
every quit task from the same `exit_mark_` member, so every quit task of a
pool returns the one sentinel allocation made at construction. -/
def QuitTask : ITask := ⟨Ptr.sentinel⟩

/-- `mapSet m k b` is `m[k] = b` on the `unordered_map`: update the entry
when the key is present, insert it otherwise. -/
def mapSet (m : List (Nat × Bool)) (k : Nat) (b : Bool) : List (Nat × Bool) :=
  if m.any fun e => e.1 == k then m.map fun e => if e.1 == k then (k, b) else e
  else m ++ [(k, b)]

/-- How one pass of the `while` loop of `ThreadPool::Cycle` (lines 156-185)
ends: `looped` is reaching line 185 and starting over, `stopped` is the
`break` on line 176, `nullDeref` is the undefined behaviour of calling
`task->Execute()` through a null task pointer on line 171, and `blocked` is
sleeping on the condition variable because the queue is empty (line 160). -/
inductive CycleOutcome where
  | looped (s : PoolState)
  | stopped (s : PoolState)
  | nullDeref (s : PoolState)
  | blocked (s : PoolState)
deriving DecidableEq

/-- The pool state when a cycle pass ends (for `nullDeref`, at the moment
the null pointer is dereferenced; for `blocked`, while asleep). -/
def CycleOutcome.state : CycleOutcome → PoolState
  | .looped s => s
  | .stopped s => s
  | .nullDeref s => s
  | .blocked s => s

/-- Whether the pass ended in the `break` on line 176. -/
def CycleOutcome.isStopped : CycleOutcome → Bool
  | .stopped _ => true
  | _ => false

/-- Lines 163-185 of `ThreadPool::Cycle`, once the wait on line 160 has
returned with head task `t`: mark the worker busy (line 164), pop the head
(lines 167-168), call `Execute` (line 171) and dispatch on the result:
null results are not published; a result pointer-equal to `exit_mark_`
increments the pointee and breaks (lines 174-176); any other non-null result
is pushed on the results queue (line 179); finally the worker is marked idle
again (line 184) before looping. -/
def CycleBody (wid : Nat) (s : PoolState) (t : TaskRef) (rest : List TaskRef) :
    CycleOutcome :=
  let s1 : PoolState :=
    { s with threadsIdle := mapSet s.threadsIdle wid false, waitingQueue := rest }
  match t with
  | none => .nullDeref s1
  | some task =>
    let r := task.Execute
    if r = Ptr.null then
      .looped { s1 with threadsIdle := mapSet s1.threadsIdle wid true }
    else if r = Ptr.sentinel then
      .stopped { s1 with exitMark := s1.exitMark + 1 }
    else
      .looped { s1 with resultsQueue := s1.resultsQueue ++ [r],
                        threadsIdle := mapSet s1.threadsIdle wid true }

/-- One pass of the `while (true)` loop of `ThreadPool::Cycle` (lines
156-185) executed by worker `wid`: with an empty queue the worker sleeps on
the condition variable, otherwise it proceeds with the head task. -/
def CycleIter (wid : Nat) (s : PoolState) : CycleOutcome :=
  match s.waitingQueue with
  | [] => .blocked s
  | t :: rest => CycleBody wid s t rest

theorem CycleIter_nil {s : PoolState} (wid : Nat) (h : s.waitingQueue = []) :
    CycleIter wid s = .blocked s := by
  unfold CycleIter
  rw [h]

theorem CycleIter_cons {s : PoolState} (wid : Nat) {t : TaskRef}
    {rest : List TaskRef} (h : s.waitingQueue = t :: rest) :
    CycleIter wid s = CycleBody wid s t rest := by
  unfold CycleIter
  rw [h]

/-- Claim C1: `Drop` returns false exactly when the waiting queue already
holds at least `kMaxQueueSize` tasks; on failure the whole state is
unchanged, on success the task is appended at the tail, and a queue within
capacity stays within capacity. -/
theorem drop_bounded_queue_spec (s : PoolState) (t : TaskRef) :
    ((Drop s t).1 = false ↔ s.kMaxQueueSize ≤ s.waitingQueue.length)
    ∧ ((Drop s t).1 = false → (Drop s t).2 = s)
    ∧ ((Drop s t).1 = true → (Drop s t).2.waitingQueue = s.waitingQueue ++ [t])
    ∧ (s.waitingQueue.length ≤ s.kMaxQueueSize →
        (Drop s t).2.waitingQueue.length ≤ s.kMaxQueueSize) := by
  unfold Drop
  by_cases h : s.kMaxQueueSize ≤ s.waitingQueue.length
  · simp [h]
  · simp [h]
    omega

/-- Witness for C1 at concrete inputs: a pool of capacity 2 accepts a task
and appends it, and a pool of capacity 0 rejects with the state unchanged. -/
theorem drop_bounded_queue_spec_witness :
    (Drop (mkThreadPool 1 2) none).2.waitingQueue = [] ++ [none]
    ∧ (Drop (mkThreadPool 0 0) none).1 = false
    ∧ (Drop (mkThreadPool 0 0) none).2 = mkThreadPool 0 0 :=
  ⟨(drop_bounded_queue_spec (mkThreadPool 1 2) none).2.2.1 (by decide),
   (drop_bounded_queue_spec (mkThreadPool 0 0) none).1.mpr (by decide),
   (drop_bounded_queue_spec (mkThreadPool 0 0) none).2.1
     ((drop_bounded_queue_spec (mkThreadPool 0 0) none).1.mpr (by decide))⟩

/-- Claim C3: a worker pass ends in the `break` of line 176 exactly when the
executed task returns a pointer identical to the pool sentinel `exit_mark_`;
when it does, the stop-acknowledgement counter has been incremented by one.
A result that is a distinct allocation never stops the worker, even when the
value it points at (`pointee m`) coincides with the sentinel counter value,
because line 174 compares pointers, not pointees.  Every quit task returns
the single sentinel created at construction. -/
theorem worker_stops_iff_sentinel_identity (s : PoolState) (wid : Nat)
    (task : ITask) (rest : List TaskRef)
    (hq : s.waitingQueue = some task :: rest) :
    ((CycleIter wid s).isStopped = true ↔ task.Execute = Ptr.sentinel)
    ∧ ((CycleIter wid s).isStopped = true →
        (CycleIter wid s).state.exitMark = s.exitMark + 1)
    ∧ (∀ (m : Nat) (pointee : Nat → Nat), task.Execute = Ptr.addr m →
        pointee m = s.exitMark → (CycleIter wid s).isStopped = false)
    ∧ QuitTask.Execute = Ptr.sentinel := by
  rw [CycleIter_cons wid hq]
  cases hr : task.Execute <;>
    simp [CycleBody, hr, CycleOutcome.isStopped, CycleOutcome.state, QuitTask]

/-- Witness for C3: in a one-thread pool whose queue holds one quit task,
the worker pass stops and the counter goes from 0 to 1. -/
theorem worker_stops_iff_sentinel_identity_witness :
    (CycleIter 0
      { waitingQueue := [some QuitTask], resultsQueue := [],
        threadsIdle := [(0, true)], exitMark := 0, kMaxQueueSize := 1,
        kNumThreads := 1 }).isStopped = true
    ∧ (CycleIter 0
      { waitingQueue := [some QuitTask], resultsQueue := [],
        threadsIdle := [(0, true)], exitMark := 0, kMaxQueueSize := 1,
        kNumThreads := 1 }).state.exitMark = 0 + 1 :=
  have h := worker_stops_iff_sentinel_identity
    { waitingQueue := [some QuitTask], resultsQueue := [],
      threadsIdle := [(0, true)], exitMark := 0, kMaxQueueSize := 1,
      kNumThreads := 1 } 0 QuitTask [] rfl
  ⟨h.1.mpr rfl, h.2.1 (h.1.mpr rfl)⟩

/-- Claim C5: the pass of a worker over a task publishes the returned result
to the results queue exactly when that result is neither null nor the
sentinel, and a null result leaves the results queue and
`QueryResultsCount` unchanged. -/
theorem publish_iff_nonnull_nonsentinel (s : PoolState) (wid : Nat)
    (task : ITask) (rest : List TaskRef)
    (hq : s.waitingQueue = some task :: rest) :
    ((CycleIter wid s).state.resultsQueue = s.resultsQueue ++ [task.Execute]
      ↔ task.Execute ≠ Ptr.null ∧ task.Execute ≠ Ptr.sentinel)
    ∧ (task.Execute = Ptr.null →
        (CycleIter wid s).state.resultsQueue = s.resultsQueue
        ∧ QueryResultsCount (CycleIter wid s).state = QueryResultsCount s) := by
  rw [CycleIter_cons wid hq]
  cases hr : task.Execute <;>
    simp [CycleBody, hr, CycleOutcome.state, QueryResultsCount]

/-- Witness for C5: a task returning the allocation `addr 5` gets its result
appended to the buffer, and a task returning null leaves the buffer and its
count untouched. -/
theorem publish_iff_nonnull_nonsentinel_witness :
    (CycleIter 0
      { waitingQueue := [some ⟨Ptr.addr 5⟩], resultsQueue := [Ptr.addr 1],
        threadsIdle := [(0, true)], exitMark := 0, kMaxQueueSize := 2,
        kNumThreads := 1 }).state.resultsQueue = [Ptr.addr 1] ++ [Ptr.addr 5]
    ∧ (CycleIter 0
      { waitingQueue := [some ⟨Ptr.null⟩], resultsQueue := [Ptr.addr 1],
        threadsIdle := [(0, true)], exitMark := 0, kMaxQueueSize := 2,
        kNumThreads := 1 }).state.resultsQueue = [Ptr.addr 1] :=
  ⟨(publish_iff_nonnull_nonsentinel
      { waitingQueue := [some ⟨Ptr.addr 5⟩], resultsQueue := [Ptr.addr 1],
        threadsIdle := [(0, true)], exitMark := 0, kMaxQueueSize := 2,
        kNumThreads := 1 } 0 ⟨Ptr.addr 5⟩ [] rfl).1.mpr (by decide),
   ((publish_iff_nonnull_nonsentinel
      { waitingQueue := [some ⟨Ptr.null⟩], resultsQueue := [Ptr.addr 1],
        threadsIdle := [(0, true)], exitMark := 0, kMaxQueueSize := 2,
        kNumThreads := 1 } 0 ⟨Ptr.null⟩ [] rfl).2 rfl).1⟩

/-- Claim C10: `Drop` never inspects the task value, so a null task pointer
below capacity is accepted and enqueued like any other, and a worker that
later dequeues it calls `Execute` through the null pointer (modelled as the
`nullDeref` outcome) with no intervening null check. -/
theorem null_task_accepted_and_dereferenced (s : PoolState)
    (h : s.waitingQueue.length < s.kMaxQueueSize) :
    (Drop s none).1 = true
    ∧ (Drop s none).2.waitingQueue = s.waitingQueue ++ [none]
    ∧ (∀ t t' : TaskRef, (Drop s t).1 = (Drop s t').1)
    ∧ (∀ (s' : PoolState) (wid : Nat) (rest : List TaskRef),
        s'.waitingQueue = none :: rest →
        CycleIter wid s' = .nullDeref
          { s' with threadsIdle := mapSet s'.threadsIdle wid false,
                    waitingQueue := rest }) := by
  have hnle : ¬ s.kMaxQueueSize ≤ s.waitingQueue.length := Nat.not_le.mpr h
  refine ⟨by simp [Drop, hnle], by simp [Drop, hnle], ?_, ?_⟩
  · intro t t'
    by_cases hc : s.kMaxQueueSize ≤ s.waitingQueue.length <;> simp [Drop, hc]
  · intro s' wid rest hq
    rw [CycleIter_cons wid hq]
    rfl

/-- Witness for C10: a fresh one-slot pool accepts a null task pointer and
enqueues it. -/
theorem null_task_accepted_and_dereferenced_witness :
    (Drop (mkThreadPool 1 1) none).1 = true
    ∧ (Drop (mkThreadPool 1 1) none).2.waitingQueue = [] ++ [none] :=
  ⟨(null_task_accepted_and_dereferenced (mkThreadPool 1 1) (by decide)).1,
   (null_task_accepted_and_dereferenced (mkThreadPool 1 1) (by decide)).2.1⟩

/-- The push on line 179: publishing one result to the results queue. -/
def publishResult (s : PoolState) (r : Ptr) : PoolState :=
  { s with resultsQueue := s.resultsQueue ++ [r] }

/-- An operation touching the results buffer: a worker publishing one result
(line 179) or the owning thread draining via `GrabAllResults`. -/
inductive BufOp where
  | publish (r : Ptr)
  | drain

/-- Run a sequence of buffer operations; returns the final state and the
concatenation, in call order, of the outputs of every drain. -/
def runBuf : PoolState → List BufOp → PoolState × List Ptr
  | s, [] => (s, [])
  | s, .publish r :: ops => runBuf (publishResult s r) ops
  | s, .drain :: ops =>
    let p := runBuf (GrabAllResults s).2 ops
    (p.1, (GrabAllResults s).1 ++ p.2)

/-- The results published by a sequence of buffer operations, in order. -/
def publishedOf : List BufOp → List Ptr
  | [] => []
  | .publish r :: ops => r :: publishedOf ops
  | .drain :: ops => publishedOf ops

theorem runBuf_conservation : ∀ (ops : List BufOp) (s : PoolState),
    (runBuf s ops).2 ++ (runBuf s ops).1.resultsQueue
      = s.resultsQueue ++ publishedOf ops := by
  intro ops
  induction ops with
  | nil => intro s; simp [runBuf, publishedOf]
  | cons op ops ih =>
    intro s
    cases op with
    | publish r => simp [runBuf, publishedOf, ih, publishResult]
    | drain => simp [runBuf, publishedOf, ih, GrabAllResults, grabLoop_eq]

/-- Claim C4: `GrabAllResults` returns the whole buffer in FIFO publication
order and empties it; on an empty buffer it returns the empty vector, so a
second drain with no intervening publication is empty as well; and over any
sequence of publishes and drains the concatenated drain outputs followed by
whatever is still buffered equal the prior buffer followed by the full
publication history, with no duplicates and no omissions. -/
theorem grab_all_results_drain_spec (s : PoolState) :
    ((GrabAllResults s).1 = s.resultsQueue)
    ∧ ((GrabAllResults s).2.resultsQueue = [])
    ∧ (s.resultsQueue = [] → (GrabAllResults s).1 = [])
    ∧ ((GrabAllResults (GrabAllResults s).2).1 = [])
    ∧ (∀ ops : List BufOp,
        (runBuf s ops).2 ++ (runBuf s ops).1.resultsQueue
          = s.resultsQueue ++ publishedOf ops) := by
  refine ⟨GrabAllResults_fst s, rfl, ?_, ?_, fun ops => runBuf_conservation ops s⟩
  · intro h
    rw [GrabAllResults_fst, h]
  · rw [GrabAllResults_fst]
    rfl

/-- Witness for C4: draining a buffer holding two results returns both in
order, and draining again right after returns the empty vector. -/
theorem grab_all_results_drain_spec_witness :
    (GrabAllResults
      { waitingQueue := [], resultsQueue := [Ptr.addr 2, Ptr.addr 3],
        threadsIdle := [], exitMark := 0, kMaxQueueSize := 4,
        kNumThreads := 0 }).1 = [Ptr.addr 2, Ptr.addr 3]
    ∧ (GrabAllResults (GrabAllResults
      { waitingQueue := [], resultsQueue := [Ptr.addr 2, Ptr.addr 3],
        threadsIdle := [], exitMark := 0, kMaxQueueSize := 4,
        kNumThreads := 0 }).2).1 = [] :=
  ⟨(grab_all_results_drain_spec
      { waitingQueue := [], resultsQueue := [Ptr.addr 2, Ptr.addr 3],
        threadsIdle := [], exitMark := 0, kMaxQueueSize := 4,
        kNumThreads := 0 }).1,
   (grab_all_results_drain_spec
      { waitingQueue := [], resultsQueue := [Ptr.addr 2, Ptr.addr 3],
        threadsIdle := [], exitMark := 0, kMaxQueueSize := 4,
        kNumThreads := 0 }).2.2.2.1⟩

theorem Drop_true_queue {s : PoolState} {t : TaskRef} (h : (Drop s t).1 = true) :
    (Drop s t).2.waitingQueue = s.waitingQueue ++ [t] := by
  unfold Drop at h ⊢
  by_cases hc : s.kMaxQueueSize ≤ s.waitingQueue.length
  · simp [hc] at h
  · simp [hc]

theorem Drop_false_state {s : PoolState} {t : TaskRef} (h : (Drop s t).1 = false) :
    (Drop s t).2 = s := by
  unfold Drop at h ⊢
  by_cases hc : s.kMaxQueueSize ≤ s.waitingQueue.length
  · simp [hc]
  · simp [hc] at h

theorem Drop_threadsIdle (s : PoolState) (t : TaskRef) :
    (Drop s t).2.threadsIdle = s.threadsIdle := by
  unfold Drop
  by_cases hc : s.kMaxQueueSize ≤ s.waitingQueue.length <;> simp [hc]

theorem Drop_exitMark (s : PoolState) (t : TaskRef) :
    (Drop s t).2.exitMark = s.exitMark := by
  unfold Drop
  by_cases hc : s.kMaxQueueSize ≤ s.waitingQueue.length <;> simp [hc]

theorem CycleBody_state_queue (wid : Nat) (s : PoolState) (t : TaskRef)
    (rest : List TaskRef) :
    (CycleBody wid s t rest).state.waitingQueue = rest := by
  cases t with
  | none => rfl
  | some task =>
    unfold CycleBody
    by_cases h1 : task.Execute = Ptr.null
    · simp [h1, CycleOutcome.state]
    · by_cases h2 : task.Execute = Ptr.sentinel <;>
        simp [h1, h2, CycleOutcome.state]

/-- An event in the life of the pool: the owning thread calling `Drop`
(line 117) with some task reference, or worker `wid` performing one pass of
its cycle (lines 156-185). -/
inductive PoolEv where
  | sub (t : TaskRef)
  | work (wid : Nat)

/-- The pool state together with the ghost history of which submissions were
accepted (in acceptance order) and which tasks have been dequeued by workers
(in dequeue order). -/
structure Ghost where
  s : PoolState
  accepted : List TaskRef
  dequeued : List TaskRef

/-- Apply one event: a submission goes through `Drop` and is recorded as
accepted exactly when `Drop` returns true; a worker pass dequeues the head
when the queue is not empty and otherwise leaves the worker asleep. -/
def stepGhost (g : Ghost) : PoolEv → Ghost
  | .sub t =>
    if (Drop g.s t).1 then
      { s := (Drop g.s t).2, accepted := g.accepted ++ [t],
        dequeued := g.dequeued }
    else
      { s := (Drop g.s t).2, accepted := g.accepted, dequeued := g.dequeued }
  | .work wid =>
    match g.s.waitingQueue with
    | [] => g
    | t :: _ =>
      { s := (CycleIter wid g.s).state, accepted := g.accepted,
        dequeued := g.dequeued ++ [t] }

/-- Apply a sequence of events in order. -/
def runEvents : Ghost → List PoolEv → Ghost
  | g, [] => g
  | g, e :: evs => runEvents (stepGhost g e) evs

/-- A freshly constructed pool with empty ghost history. -/
def initGhost (n cap : Nat) : Ghost :=
  { s := mkThreadPool n cap, accepted := [], dequeued := [] }

theorem stepGhost_fifo (g : Ghost) (e : PoolEv)
    (h : g.accepted = g.dequeued ++ g.s.waitingQueue) :
    (stepGhost g e).accepted
      = (stepGhost g e).dequeued ++ (stepGhost g e).s.waitingQueue := by
  cases e with
  | sub t =>
    by_cases hd : (Drop g.s t).1 = true
    · simp [stepGhost, hd, Drop_true_queue hd, h]
    · have hd' : (Drop g.s t).1 = false := by
        simpa using hd
      simp [stepGhost, hd', Drop_false_state hd', h]
  | work wid =>
    cases hq : g.s.waitingQueue with
    | nil => simpa [stepGhost, hq] using h
    | cons t rest =>
      simp [stepGhost, hq, CycleIter_cons wid hq, CycleBody_state_queue, h]

theorem runEvents_fifo : ∀ (evs : List PoolEv) (g : Ghost),
    g.accepted = g.dequeued ++ g.s.waitingQueue →
    (runEvents g evs).accepted
      = (runEvents g evs).dequeued ++ (runEvents g evs).s.waitingQueue := by
  intro evs
  induction evs with
  | nil => intro g h; exact h
  | cons e evs ih => intro g h; exact ih _ (stepGhost_fifo g e h)

/-- Claim C6: over every event sequence starting from a fresh pool, the
sequence of accepted submissions equals the sequence of dequeued tasks
followed by the tasks still waiting, i.e. workers remove tasks in exactly
the order `Drop` accepted them (FIFO); nothing is said about completion
order across workers. -/
theorem submission_dequeue_fifo (n cap : Nat) (evs : List PoolEv) :
    (runEvents (initGhost n cap) evs).accepted
      = (runEvents (initGhost n cap) evs).dequeued
        ++ (runEvents (initGhost n cap) evs).s.waitingQueue :=
  runEvents_fifo evs (initGhost n cap) rfl

/-- The keys (thread ids) of the idle map, in entry order. -/
def keysOf (m : List (Nat × Bool)) : List Nat := m.map Prod.fst

theorem keysOf_mapSet (m : List (Nat × Bool)) (k : Nat) (b : Bool)
    (h : k ∈ keysOf m) : keysOf (mapSet m k b) = keysOf m := by
  have hany : (m.any fun e => e.1 == k) = true := by
    rw [List.any_eq_true]
    simp only [keysOf, List.mem_map] at h
    obtain ⟨e, he, hek⟩ := h
    exact ⟨e, he, by simp [hek]⟩
  unfold mapSet
  rw [if_pos hany]
  unfold keysOf
  rw [List.map_map]
  apply List.map_congr_left
  intro e _
  by_cases hek : e.1 = k
  · simp [Function.comp, hek]
  · simp [Function.comp, hek]

theorem CycleBody_state_keys (wid : Nat) (s : PoolState) (t : TaskRef)
    (rest : List TaskRef) (h : wid ∈ keysOf s.threadsIdle) :
    keysOf (CycleBody wid s t rest).state.threadsIdle
      = keysOf s.threadsIdle := by
  have h1 : keysOf (mapSet s.threadsIdle wid false) = keysOf s.threadsIdle :=
    keysOf_mapSet _ _ _ h
  have h2 : wid ∈ keysOf (mapSet s.threadsIdle wid false) := h1 ▸ h
  cases t with
  | none => simpa [CycleBody, CycleOutcome.state] using h1
  | some task =>
    by_cases e1 : task.Execute = Ptr.null
    · simp [CycleBody, e1, CycleOutcome.state, keysOf_mapSet _ _ _ h2, h1]
    · by_cases e2 : task.Execute = Ptr.sentinel
      · simp [CycleBody, e1, e2, CycleOutcome.state, h1]
      · simp [CycleBody, e1, e2, CycleOutcome.state, keysOf_mapSet _ _ _ h2, h1]

theorem stepGhost_keys (n : Nat) (g : Ghost) (e : PoolEv)
    (hk : keysOf g.s.threadsIdle = List.range n)
    (hw : ∀ wid, e = .work wid → wid < n) :
    keysOf (stepGhost g e).s.threadsIdle = List.range n := by
  cases e with
  | sub t =>
    by_cases hd : (Drop g.s t).1 = true <;>
      simp [stepGhost, hd, Drop_threadsIdle, hk]
  | work wid =>
    cases hq : g.s.waitingQueue with
    | nil => simpa [stepGhost, hq] using hk
    | cons t rest =>
      have hmem : wid ∈ keysOf g.s.threadsIdle := by
        rw [hk]
        exact List.mem_range.mpr (hw wid rfl)
      simp [stepGhost, hq, CycleIter_cons wid hq,
        CycleBody_state_keys wid g.s t rest hmem, hk]

theorem runEvents_keys (n : Nat) : ∀ (evs : List PoolEv) (g : Ghost),
    keysOf g.s.threadsIdle = List.range n →
    (∀ wid, PoolEv.work wid ∈ evs → wid < n) →
    keysOf (runEvents g evs).s.threadsIdle = List.range n := by
  intro evs
  induction evs with
  | nil => intro g hk _; exact hk
  | cons e evs ih =>
    intro g hk hw
    refine ih _ (stepGhost_keys n g e hk ?_) ?_
    · intro wid he
      subst he
      exact hw wid (List.mem_cons_self _ _)
    · intro wid hm
      exact hw wid (List.mem_cons_of_mem e hm)

theorem QueryIdle_le (s : PoolState) (n : Nat)
    (hk : keysOf s.threadsIdle = List.range n) :
    QueryIdleThreadsCount s ≤ n := by
  have h1 : (s.threadsIdle.filter fun e => e.2).length ≤ s.threadsIdle.length :=
    List.length_filter_le _ _
  have h2 : s.threadsIdle.length = n := by
    have h3 := congrArg List.length hk
    simpa [keysOf] using h3
  unfold QueryIdleThreadsCount
  omega

theorem QueryIdle_fresh (n cap : Nat) :
    QueryIdleThreadsCount (mkThreadPool n cap) = n := by
  unfold QueryIdleThreadsCount mkThreadPool
  have hf : (((List.range n).map fun i => (i, true)).filter fun e => e.2)
      = (List.range n).map fun i => (i, true) := by
    rw [List.filter_eq_self]
    intro e he
    simp only [List.mem_map] at he
    obtain ⟨i, _, rfl⟩ := he
    rfl
  rw [hf]
  simp

theorem keysOf_fresh (n cap : Nat) :
    keysOf (mkThreadPool n cap).threadsIdle = List.range n := by
  unfold keysOf mkThreadPool
  rw [List.map_map]
  have hcomp : (Prod.fst ∘ fun i : Nat => (i, true)) = id := by
    funext i
    rfl
  rw [hcomp, List.map_id]

/-- Claim C7: along every event sequence from a fresh pool whose worker
passes are performed by the spawned workers, `QueryIdleThreadsCount` stays
within `[0, kNumThreads]` (the lower bound is inherent to `Nat`), and a
freshly constructed pool with its empty queue reports every one of its
`kNumThreads` workers idle, since construction enters each spawned identity
into the idle map as idle. -/
theorem idle_count_within_bounds (n cap : Nat) (evs : List PoolEv)
    (hw : ∀ wid, PoolEv.work wid ∈ evs → wid < n) :
    QueryIdleThreadsCount (runEvents (initGhost n cap) evs).s ≤ n
    ∧ QueryIdleThreadsCount (mkThreadPool n cap) = n
    ∧ (mkThreadPool n cap).waitingQueue = [] := by
  refine ⟨?_, QueryIdle_fresh n cap, rfl⟩
  exact QueryIdle_le _ n
    (runEvents_keys n evs (initGhost n cap) (keysOf_fresh n cap) hw)

/-- Witness for C7: a two-worker pool, after accepting one ordinary task and
letting worker 0 run one pass, reports at most 2 idle workers, and reports
exactly 2 right after construction. -/
theorem idle_count_within_bounds_witness :
    QueryIdleThreadsCount (runEvents (initGhost 2 4)
      [PoolEv.sub (some ⟨Ptr.addr 0⟩), PoolEv.work 0]).s ≤ 2
    ∧ QueryIdleThreadsCount (mkThreadPool 2 4) = 2 :=
  have h := idle_count_within_bounds 2 4
    [PoolEv.sub (some ⟨Ptr.addr 0⟩), PoolEv.work 0]
    (by intro wid hm; simp at hm; omega)
  ⟨h.1, h.2.1⟩

theorem CycleBody_exitMark (wid : Nat) (s : PoolState) (t : TaskRef)
    (rest : List TaskRef) :
    (CycleBody wid s t rest).state.exitMark
      = if (CycleBody wid s t rest).isStopped then s.exitMark + 1
        else s.exitMark := by
  cases t with
  | none => rfl
  | some task =>
    by_cases e1 : task.Execute = Ptr.null
    · simp [CycleBody, e1, CycleOutcome.state, CycleOutcome.isStopped]
    · by_cases e2 : task.Execute = Ptr.sentinel
      · simp [CycleBody, e1, e2, CycleOutcome.state, CycleOutcome.isStopped]
      · simp [CycleBody, e1, e2, CycleOutcome.state, CycleOutcome.isStopped]

theorem CycleIter_exitMark (wid : Nat) (s : PoolState) :
    (CycleIter wid s).state.exitMark
      = if (CycleIter wid s).isStopped then s.exitMark + 1 else s.exitMark := by
  cases hq : s.waitingQueue with
  | nil =>
    rw [CycleIter_nil wid hq]
    simp [CycleOutcome.state, CycleOutcome.isStopped]
  | cons t rest =>
    rw [CycleIter_cons wid hq]
    exact CycleBody_exitMark wid s t rest

theorem CycleIter_looped_exitMark {wid : Nat} {s s1 : PoolState}
    (h : CycleIter wid s = .looped s1) : s1.exitMark = s.exitMark := by
  have h2 := CycleIter_exitMark wid s
  rw [h] at h2
  simpa [CycleOutcome.state, CycleOutcome.isStopped] using h2

theorem CycleIter_stopped_exitMark {wid : Nat} {s s1 : PoolState}
    (h : CycleIter wid s = .stopped s1) : s1.exitMark = s.exitMark + 1 := by
  have h2 := CycleIter_exitMark wid s
  rw [h] at h2
  simpa [CycleOutcome.state, CycleOutcome.isStopped] using h2

/-- Some number of worker cycle passes interleaved in any order between the
spawned workers; the index counts how many of the passes ended in the stop
`break` of line 176 (each of which increments the acknowledgement counter
exactly once). -/
inductive WorkerSteps : Nat → PoolState → PoolState → Prop where
  | refl (s : PoolState) : WorkerSteps 0 s s
  | cont {wid n : Nat} {s s1 s2 : PoolState} :
      CycleIter wid s = .looped s1 → WorkerSteps n s1 s2 → WorkerSteps n s s2
  | stop {wid n : Nat} {s s1 s2 : PoolState} :
      CycleIter wid s = .stopped s1 → WorkerSteps n s1 s2 → WorkerSteps (n + 1) s s2

theorem WorkerSteps_exitMark {n : Nat} {s s1 : PoolState}
    (h : WorkerSteps n s s1) : s1.exitMark = s.exitMark + n := by
  induction h with
  | refl s => rfl
  | cont hc _ ih => rw [ih, CycleIter_looped_exitMark hc]
  | stop hc _ ih =>
    rw [ih, CycleIter_stopped_exitMark hc]
    omega

theorem WorkerSteps_nil {n : Nat} {s s1 : PoolState} (h : WorkerSteps n s s1)
    (hq : s.waitingQueue = []) : s1 = s ∧ n = 0 := by
  cases h with
  | refl => exact ⟨rfl, rfl⟩
  | cont hc _ =>
    rw [CycleIter_nil _ hq] at hc
    simp at hc
  | stop hc _ =>
    rw [CycleIter_nil _ hq] at hc
    simp at hc

/-- The destructor for-loop (lines 105-115): `DtorLoop k i d a s s3` says
that the loop, entered at iteration `i` of `k` in state `s`, runs to
completion in state `s3`, performing `d` further submissions of a quit task
built on the pool sentinel (line 109, return value ignored) and observing
`a` further stop acknowledgements from workers; each iteration busy-waits
(line 110) until the counter behind `exit_mark_` equals `i + 1` before
moving on.  Worker passes interleave freely with the loop. -/
inductive DtorLoop : Nat → Nat → Nat → Nat → PoolState → PoolState → Prop where
  | done (k : Nat) (s : PoolState) : DtorLoop k k 0 0 s s
  | iter {k i d a n : Nat} {s s2 s3 : PoolState} :
      i < k →
      WorkerSteps n (Drop s (some QuitTask)).2 s2 →
      s2.exitMark = i + 1 →
      DtorLoop k (i + 1) d a s2 s3 →
      DtorLoop k i (d + 1) (a + n) s s3

theorem DtorLoop_invariant {k i d a : Nat} {s s3 : PoolState}
    (h : DtorLoop k i d a s s3) :
    s.exitMark = i → d + i = k ∧ a + i = k ∧ s3.exitMark = k := by
  induction h with
  | done =>
    intro hm
    exact ⟨by omega, by omega, hm⟩
  | iter hik hws hmark _ ih =>
    rename_i i2 d2 a2 n2 sA sB sC hrest
    intro hm
    have h1 := WorkerSteps_exitMark hws
    have h2 := Drop_exitMark sA (some QuitTask)
    obtain ⟨hd, ha, hfin⟩ := ih hmark
    exact ⟨by omega, by omega, hfin⟩

/-- Claim C2: any run of the destructor of a pool with `kNumThreads = k`
that starts with the acknowledgement counter at 0 and returns, has submitted
exactly `k` sentinel-bearing quit tasks through the ordinary bounded `Drop`
path, has observed exactly `k` stop acknowledgements, and ends with the
counter at `k` — however many ordinary tasks were queued and executed by
workers in between. -/
theorem dtor_exact_k_acknowledgements (k d a : Nat) (s s3 : PoolState)
    (h0 : s.exitMark = 0) (hrun : DtorLoop k 0 d a s s3) :
    d = k ∧ a = k ∧ s3.exitMark = k := by
  obtain ⟨hd, ha, hfin⟩ := DtorLoop_invariant hrun h0
  exact ⟨by omega, by omega, hfin⟩

/-- The pool state after the one-worker destructor run used as witness for
C2: quit task consumed, worker stopped busy, counter at 1. -/
def dtorWitnessFinal : PoolState :=
  { waitingQueue := [], resultsQueue := [], threadsIdle := [(0, false)],
    exitMark := 1, kMaxQueueSize := 1, kNumThreads := 1 }

/-- Witness for C2: a concrete complete destructor run on a one-thread pool
of capacity 1 submits one quit task, observes one acknowledgement, and ends
with the counter at 1. -/
theorem dtor_exact_k_acknowledgements_witness :
    DtorLoop 1 0 1 1 (mkThreadPool 1 1) dtorWitnessFinal
    ∧ dtorWitnessFinal.exitMark = 1 := by
  have hcyc : CycleIter 0 (Drop (mkThreadPool 1 1) (some QuitTask)).2
      = .stopped dtorWitnessFinal := by decide
  have hws : WorkerSteps 1 (Drop (mkThreadPool 1 1) (some QuitTask)).2
      dtorWitnessFinal := WorkerSteps.stop hcyc (WorkerSteps.refl _)
  have hrun : DtorLoop 1 0 1 1 (mkThreadPool 1 1) dtorWitnessFinal :=
    DtorLoop.iter (by decide) hws (by decide) (DtorLoop.done 1 dtorWitnessFinal)
  exact ⟨hrun, (dtor_exact_k_acknowledgements 1 1 1 (mkThreadPool 1 1)
    dtorWitnessFinal (by decide) hrun).2.2⟩

/-- Claim C9: in a pool with `kMaxQueueSize = 0` every `Drop` — including
the destructor quit submissions, whose ignored return value is false —
fails and leaves the state unchanged, so from an empty queue with the
counter at 0 no run of the destructor loop for `k ≥ 1` workers can complete:
pool destruction never terminates. -/
theorem cap_zero_destruction_never_terminates (s : PoolState)
    (h0 : s.kMaxQueueSize = 0) :
    (∀ t : TaskRef, (Drop s t).1 = false ∧ (Drop s t).2 = s)
    ∧ (s.waitingQueue = [] → s.exitMark = 0 →
        ∀ (k d a : Nat) (s3 : PoolState), 1 ≤ k → ¬ DtorLoop k 0 d a s s3) := by
  have hdrop : ∀ t : TaskRef, Drop s t = (false, s) := by
    intro t
    unfold Drop
    rw [if_pos]
    rw [h0]
    exact Nat.zero_le _
  refine ⟨fun t => by rw [hdrop t]; exact ⟨rfl, rfl⟩, ?_⟩
  intro hq hm k d a s3 hk hloop
  cases hloop with
  | done => omega
  | iter hik hws hmark _ =>
    rw [hdrop _] at hws
    obtain ⟨hs2, -⟩ := WorkerSteps_nil hws hq
    rw [hs2] at hmark
    simp at hmark
    omega

/-- Witness for C9: the concrete one-thread zero-capacity pool rejects a
submission and admits no completed destructor run. -/
theorem cap_zero_destruction_never_terminates_witness :
    (Drop (mkThreadPool 1 0) none).1 = false
    ∧ ¬ DtorLoop 1 0 1 1 (mkThreadPool 1 0) (mkThreadPool 1 0) :=
  have h := cap_zero_destruction_never_terminates (mkThreadPool 1 0) rfl
  ⟨(h.1 none).1, h.2 rfl rfl 1 1 1 (mkThreadPool 1 0) (by omega)⟩

/-- The three mutexes of the pool: `waiting_queue_mtx_` (line 74),
`results_queue_mtx_` (line 77) and `threads_idle_mtx_` (line 79). -/
inductive Lock where
  | queue
  | results
  | idle
deriving DecidableEq

/-- A lock acquisition or release. -/
inductive LockEv where
  | acq (l : Lock)
  | rel (l : Lock)
deriving DecidableEq

/-- The set of locks held after one event (as a list). -/
def stepLocks (held : List Lock) : LockEv → List Lock
  | .acq l => l :: held
  | .rel l => held.erase l

/-- Every set of held locks observed along a trace, the initial one
included. -/
def heldStates (held : List Lock) : List LockEv → List (List Lock)
  | [] => [held]
  | e :: es => held :: heldStates (stepLocks held e) es

/-- The lock behaviour of one pass of `ThreadPool::Cycle` (lines 156-185),
transcribed in source order: line 158 acquires the queue mutex (the wait on
line 160 releases and reacquires it while asleep, holding nothing else);
line 163 acquires the idle-map mutex while the queue mutex is still held;
line 165 releases the idle-map mutex; line 169 releases the queue mutex; on
a publishing pass lines 178-180 hold the results mutex; lines 183-185 hold
the idle-map mutex once more. -/
def cycleLockTrace (publishes : Bool) : List LockEv :=
  [.acq .queue, .acq .idle, .rel .idle, .rel .queue]
    ++ (if publishes then [.acq .results, .rel .results] else [])
    ++ [.acq .idle, .rel .idle]

/-- Lock behaviour of `Drop` (lines 117-125): the queue mutex only; the
destructor (lines 105-115) takes no lock itself and only calls `Drop`. -/
def dropLockTrace : List LockEv := [.acq .queue, .rel .queue]

/-- Lock behaviour of `GrabAllResults` (lines 127-135). -/
def grabAllResultsLockTrace : List LockEv := [.acq .results, .rel .results]

/-- Lock behaviour of `QueryIdleThreadsCount` (lines 137-142). -/
def queryIdleLockTrace : List LockEv := [.acq .idle, .rel .idle]

/-- Lock behaviour of `QueryWaitingQueueCount` (lines 144-147). -/
def queryWaitingLockTrace : List LockEv := [.acq .queue, .rel .queue]

/-- Lock behaviour of `QueryResultsCount` (lines 149-152). -/
def queryResultsLockTrace : List LockEv := [.acq .results, .rel .results]

/-- Lock behaviour of the constructor (lines 96-102): the idle-map mutex,
held across the spawning loop. -/
def ctorLockTrace : List LockEv := [.acq .idle, .rel .idle]

/-- Whether a trace started with no lock held never holds two locks at
once. -/
def atMostOneHeld (t : List LockEv) : Bool :=
  (heldStates [] t).all fun h => decide (h.length ≤ 1)

/-- A held set acceptable under the amended discipline: at most one lock,
or exactly the queue and idle-map pair. -/
def atMostTwoQueueIdle (h : List Lock) : Bool :=
  decide (h.length ≤ 1)
    || decide (h.length = 2 ∧ Lock.queue ∈ h ∧ Lock.idle ∈ h)

/-- Counterexample to claim C8 as stated: the held lock sets along a worker
cycle pass are not all of size at most one — at the mark-busy step (lines
163-165) the worker holds the queue mutex and the idle-map mutex at the same
time. -/
theorem worker_holds_two_locks_counterexample :
    atMostOneHeld (cycleLockTrace true) = false
    ∧ [Lock.idle, Lock.queue] ∈ heldStates [] (cycleLockTrace true) := by
  decide

/-- Claim C8 amended: along a worker cycle pass at most two of the three
locks are held at once, and a doubly-held set occurs only as the queue plus
idle-map pair of the mark-busy step (lines 163-165); every public operation
run by the owning thread — `Drop` (and through it each destructor
submission), `GrabAllResults`, the three queries and the constructor —
holds at most one of the three locks per call. -/
theorem lock_discipline_amended :
    ((heldStates [] (cycleLockTrace true)).all atMostTwoQueueIdle = true)
    ∧ ((heldStates [] (cycleLockTrace false)).all atMostTwoQueueIdle = true)
    ∧ atMostOneHeld dropLockTrace = true
    ∧ atMostOneHeld grabAllResultsLockTrace = true
    ∧ atMostOneHeld queryIdleLockTrace = true
    ∧ atMostOneHeld queryWaitingLockTrace = true
    ∧ atMostOneHeld queryResultsLockTrace = true
    ∧ atMostOneHeld ctorLockTrace = true := by
  decide

end TinyTp
